import Mathlib

/-!
# namedev.c: the device-naming rule registry and its two loaders

A shallow embedding of `src/namedev.c`.

* A `char` array holding a C string is a `List Char`: the bytes in front of the
  terminating NUL.  The `line` buffer of the loaders is a `List Char` as well, read
  through offsets (`char *` pointers into it); `strsep` writes NUL bytes into it, and
  the position one past its end reads as the terminator written by `fgets`.
* A `char *` that may be NULL is an `Option Nat` (`none` is NULL).
* The global `config_device_list` is passed explicitly, head of the list first.
* Dereferencing NULL and running past the end of a `char` array have no defined
  result: the functions that can do so return `none` (or `LineResult.undefined`).
* A file is read through `fgets` into `char line[255]`: a line of the file longer than
  254 bytes reaches the loop body in several chunks.
-/

namespace Namedev

/-! ## C library helpers -/

/-- The NUL byte that terminates a C string. -/
def NUL : Char := Char.ofNat 0

/-- `isspace` in the C locale: space, `\t`, `\n`, `\v`, `\f`, `\r`. -/
def isspace (c : Char) : Bool :=
  c == ' ' || c == '\t' || c == '\n' || c == Char.ofNat 11 || c == Char.ofNat 12 || c == '\r'

/-- `tolower` in the C locale. -/
def tolower (c : Char) : Char := c.toLower

/-- The test `strcasecmp(s, t) == 0` on two C strings. -/
def strcasecmp_eq (s t : List Char) : Bool := s.map tolower == t.map tolower

/-- The byte `*p` of the buffer `b`; one past the stored bytes sits the terminator. -/
def peek (b : List Char) (p : Nat) : Char := b.getD p NUL

/-- The C string that starts at offset `p` of the buffer `b`. -/
def cstr (b : List Char) (p : Nat) : List Char := (b.drop p).takeWhile (fun c => c != NUL)

/-- The loop `while (isspace(*string)) ++string;`: the offset it stops at. -/
def eat_whitespace (b : List Char) (p : Nat) : Nat :=
  p + ((b.drop p).takeWhile isspace).length

/-- Result of `strsep(&stringp, delim)`: the buffer, the updated `*stringp`, and the
returned token pointer. -/
structure Strsep where
  buf : List Char
  stringp : Option Nat
  token : Option Nat
  deriving DecidableEq, Repr

/-- `strsep(&stringp, delim)` for a one-character delimiter string: NULL in, NULL out;
otherwise the token starts at `*stringp` and runs to the first delimiter, which is
overwritten with NUL (then `*stringp` is the byte after it), or to the end of the
string (then `*stringp` becomes NULL). -/
def strsep (b : List Char) (stringp : Option Nat) (delim : Char) : Strsep :=
  match stringp with
  | none => ⟨b, none, none⟩
  | some p =>
    let q := p + ((b.drop p).takeWhile (fun c => c != NUL && c != delim)).length
    if peek b q = NUL then ⟨b, none, some p⟩
    else ⟨b.set q NUL, some (q + 1), some p⟩

/-- The chunks that successive calls `fgets(line, size, fd)` return on a stream that
still holds `text`, the call under way having read `cur` so far: a call returns after
a newline or after `size - 1` bytes; at the end of the stream it returns what it has
read, and NULL (the end of the list) when that is nothing. -/
def fgets_from (size : Nat) : List Char → List Char → List (List Char)
  | [], cur => if cur = [] then [] else [cur]
  | c :: rest, cur =>
    if c = '\n' ∨ cur.length + 2 ≥ size then (cur ++ [c]) :: fgets_from size rest []
    else fgets_from size rest (cur ++ [c])

/-- True on the octal digits `0`..`7`. -/
def isOctDigit (c : Char) : Bool := '0'.toNat ≤ c.toNat && c.toNat ≤ '7'.toNat

/-- Value of a run of octal digits, most significant first. -/
def octalValue (ds : List Char) : Nat :=
  ds.foldl (fun acc c => acc * 8 + (c.toNat - '0'.toNat)) 0

/-- `strtol(s, NULL, 8)` with a 64-bit `long`: leading whitespace is skipped, one
optional sign is read, then the longest run of octal digits; out-of-range values are
clamped to `LONG_MAX` / `LONG_MIN`; no digits give 0. -/
def strtol8 (s : List Char) : Int :=
  let s1 := s.dropWhile isspace
  let neg := s1.head? == some '-'
  let s2 := if s1.head? == some '-' || s1.head? == some '+' then s1.tail else s1
  let v : Int := octalValue (s2.takeWhile isOctDigit)
  if neg then max (-v) (-(2 ^ 63)) else min v (2 ^ 63 - 1)

/-- Conversion of a `long` to the 32-bit `int` of `dev.mode`: the low 32 bits, read
as two's complement. -/
def long_to_int (v : Int) : Int := (v + 2 ^ 31) % 2 ^ 32 - 2 ^ 31

def ENODEV : Int := 19
def ENOMEM : Int := 12

/-! ## Data model -/

/-- The `enum config_type`. -/
inductive config_type
  | KERNEL_NAME
  | LABEL
  | NUMBER
  | TOPOLOGY
  | REPLACE
  deriving DecidableEq, Repr

def BUS_SIZE : Nat := 30
def FILE_SIZE : Nat := 50
def VALUE_SIZE : Nat := 100
def ID_SIZE : Nat := 50
def PLACE_SIZE : Nat := 50
def NAME_SIZE : Nat := 100
def OWNER_SIZE : Nat := 30
def GROUP_SIZE : Nat := 30

def TYPE_LABEL : List Char := "LABEL".toList
def TYPE_NUMBER : List Char := "NUMBER".toList
def TYPE_TOPOLOGY : List Char := "TOPOLOGY".toList
def TYPE_REPLACE : List Char := "REPLACE".toList

/-- The `struct config_device` without its list node; each `char` array is given by
the C string it holds, the bytes in front of its terminator.  A value that fills its
array, as `strncpy` can leave it, stands for an array without terminator. -/
structure config_device where
  type : config_type
  bus : List Char
  sysfs_file : List Char
  sysfs_value : List Char
  id : List Char
  place : List Char
  kernel_name : List Char
  mode : Int
  name : List Char
  owner : List Char
  group : List Char
  deriving DecidableEq, Repr

/-- The record after `memset(&dev, 0x00, sizeof(dev))`. -/
def zero_dev : config_device :=
  ⟨config_type.KERNEL_NAME, [], [], [], [], [], [], 0, [], [], []⟩

/-! ## The registry: `add_dev` -/

/-- The macro `copy_var(a, b, var)` on `type`: `if (b->type) b->type = a->type;`. -/
def copy_var_type (a b : config_device) : config_device :=
  if b.type ≠ config_type.KERNEL_NAME then { b with type := a.type } else b

/-- The macro `copy_var(a, b, var)` on `mode`: `if (b->mode) b->mode = a->mode;`. -/
def copy_var_mode (a b : config_device) : config_device :=
  if b.mode ≠ 0 then { b with mode := a.mode } else b

/-- The macro `copy_string(a, b, var)` on the values of one field: the new value of
`b->var` after `if (strlen(b->var)) strcpy(b->var, a->var);`. -/
def copy_string (a b : List Char) : List Char :=
  if b.length ≠ 0 then a else b

/-- The body of the `if (strcmp(dev->name, new_dev->name) == 0)` block of `add_dev`:
the ten macro calls, in the order of the source, with `a = new_dev`, `b = dev`. -/
def merge_dev (new_dev dev : config_device) : config_device :=
  let d := copy_var_type new_dev dev
  let d := copy_var_mode new_dev d
  let d := { d with bus := copy_string new_dev.bus d.bus }
  let d := { d with sysfs_file := copy_string new_dev.sysfs_file d.sysfs_file }
  let d := { d with sysfs_value := copy_string new_dev.sysfs_value d.sysfs_value }
  let d := { d with id := copy_string new_dev.id d.id }
  let d := { d with place := copy_string new_dev.place d.place }
  let d := { d with kernel_name := copy_string new_dev.kernel_name d.kernel_name }
  let d := { d with owner := copy_string new_dev.owner d.owner }
  { d with group := copy_string new_dev.group d.group }

/-- The `list_for_each` loop of `add_dev`: `some` of the updated list when a record
with the name of `new_dev` is found (the first one is merged, then `return 0`),
`none` when the loop runs to the end. -/
def add_dev_scan (new_dev : config_device) : List config_device → Option (List config_device)
  | [] => none
  | dev :: rest =>
    if dev.name = new_dev.name then some (merge_dev new_dev dev :: rest)
    else (add_dev_scan new_dev rest).map (fun l => dev :: l)

/-- `add_dev(new_dev)` on the list `l`; `malloc_ok` tells whether `malloc` succeeds
if it is called.  Returns the return value and the list afterwards. -/
def add_dev (malloc_ok : Bool) (new_dev : config_device) (l : List config_device) :
    Int × List config_device :=
  match add_dev_scan new_dev l with
  | some l' => (0, l')
  | none => if malloc_ok then (0, new_dev :: l) else (-ENOMEM, l)

/-! ## The tokenizer: `get_value` -/

/-- What `get_value` leaves behind: its return value, the line buffer, and the two
pointers it writes through. -/
structure GetValue where
  retval : Int
  line : List Char
  orig_string : Option Nat
  ret_string : Option Nat
  deriving DecidableEq, Repr

/-- `get_value(left, &orig_string, &ret_string)` on the buffer `line`.  `none` when a
NULL pointer is dereferenced by `isspace(*string)`. -/
def get_value (left : List Char) (line : List Char) (orig_string ret_string : Option Nat) :
    Option GetValue :=
  match orig_string with
  | none => none
  | some string0 =>
    let s1 := strsep line (some (eat_whitespace line string0)) '='
    match s1.token with
    | none => none
    | some temp =>
      if strcasecmp_eq (cstr s1.buf temp) left then
        match s1.stringp with
        | none => none
        | some string1 =>
          let string2 := eat_whitespace s1.buf string1
          let string3 := if peek s1.buf string2 = '"' then string2 + 1 else string2
          let s2 := strsep s1.buf (some string3) '"'
          some ⟨0, s2.buf, s2.stringp, s2.token⟩
      else some ⟨-ENODEV, s1.buf, orig_string, ret_string⟩

/-! ## The naming-rule loader: `namedev_init_config` -/

/-- `strcpy(dst, src)` into a `char dst[size]` of the zeroed `dev`: the string now
held by `dst`, or `none` when `src` with its terminator does not fit and the copy
runs past the array. -/
def strcpy_field (size : Nat) (src : List Char) : Option (List Char) :=
  if src.length < size then some src else none

/-- `strncpy(dst, src, size)` into a `char dst[size]` of the zeroed `dev`: the bytes
now held by `dst`, the first `size` bytes of `src` at most.  When `src` has `size`
bytes or more, the array is full and has no terminator: a field value of `size` bytes
stands for such an array. -/
def strncpy_field (size : Nat) (src : List Char) : List Char :=
  src.take size

/-- The test `strcasecmp(p, kw) == 0` through a pointer `p`; `none` when `p` is NULL. -/
def strcasecmp_at (b : List Char) (p : Option Nat) (kw : List Char) : Option Bool :=
  p.map (fun q => strcasecmp_eq (cstr b q) kw)

/-- The local variables of the loop body of `namedev_init_config`, with the `line`
buffer they point into. -/
structure Locals where
  line : List Char
  temp : Option Nat
  temp2 : Option Nat
  temp3 : Option Nat
  retval : Int
  dev : config_device
  deriving DecidableEq, Repr

/-- Where control is after one `if` block of the loop body. -/
inductive Flow
  | fall (s : Locals)
  | skip (retval : Int)
  | undefined
  deriving DecidableEq, Repr

/-- Sequencing of two blocks: the second runs when the first falls through. -/
def Flow.andThen (f : Flow) (g : Locals → Flow) : Flow :=
  match f with
  | Flow.fall s => g s
  | Flow.skip r => Flow.skip r
  | Flow.undefined => Flow.undefined

/-- The three blocks `if (strcasecmp(temp2, TYPE_x) == 0) { dev.type = x;
retval = get_value("BUS", &temp, &temp3); if (retval) continue;
strcpy(dev.bus, temp3); }` for `x` among LABEL, NUMBER, TOPOLOGY. -/
def bus_block (kw : List Char) (t : config_type) (s : Locals) : Flow :=
  match strcasecmp_at s.line s.temp2 kw with
  | none => Flow.undefined
  | some false => Flow.fall s
  | some true =>
    match get_value "BUS".toList s.line s.temp s.temp3 with
    | none => Flow.undefined
    | some g =>
      if g.retval ≠ 0 then Flow.skip g.retval
      else
        match g.ret_string with
        | none => Flow.undefined
        | some p =>
          match strcpy_field BUS_SIZE (cstr g.line p) with
          | none => Flow.undefined
          | some bus =>
            Flow.fall { s with line := g.line, temp := g.orig_string, temp3 := g.ret_string,
                               retval := g.retval, dev := { s.dev with type := t, bus := bus } }

/-- The block `if (strcasecmp(temp2, TYPE_REPLACE) == 0) { ... }`. -/
def replace_block (s : Locals) : Flow :=
  match strcasecmp_at s.line s.temp2 TYPE_REPLACE with
  | none => Flow.undefined
  | some false => Flow.fall s
  | some true =>
    match get_value "KERNEL".toList s.line s.temp s.temp3 with
    | none => Flow.undefined
    | some g =>
      if g.retval ≠ 0 then Flow.skip g.retval
      else
        match g.ret_string with
        | none => Flow.undefined
        | some p =>
          match strcpy_field NAME_SIZE (cstr g.line p) with
          | none => Flow.undefined
          | some kernel_name =>
            let sp := strsep g.line g.orig_string ','
            match get_value "NAME".toList sp.buf sp.stringp g.ret_string with
            | none => Flow.undefined
            | some g2 =>
              if g2.retval ≠ 0 then Flow.skip g2.retval
              else
                match g2.ret_string with
                | none => Flow.undefined
                | some p2 =>
                  match strcpy_field NAME_SIZE (cstr g2.line p2) with
                  | none => Flow.undefined
                  | some name =>
                    Flow.fall { line := g2.line, temp := g2.orig_string, temp2 := sp.token,
                                temp3 := g2.ret_string, retval := g2.retval,
                                dev := { s.dev with type := config_type.REPLACE,
                                                    kernel_name := kernel_name, name := name } }

/-- What one pass through a loader's loop body leaves: the next iteration is
entered (`next`, also after `continue`), or the loop is left by `goto exit`, or the
body has no defined result. -/
inductive LineResult
  | next (retval : Int) (list : List config_device)
  | exit (retval : Int) (list : List config_device)
  | undefined
  deriving DecidableEq, Repr

/-- Whether the macro `copy_string(a, b, var)` stays inside the two arrays of `size`
bytes: `strlen(b->var)` needs a terminator in `b->var`, and `strcpy(b->var, a->var)`,
run when `b->var` is not empty, needs one in `a->var`. -/
def copy_string_ok (size : Nat) (a b : List Char) : Bool :=
  decide (b.length < size) && (b.isEmpty || decide (a.length < size))

/-- Whether every string read of `add_dev(new_dev)` stays inside its array.  Two
different names are told apart by `strcmp` inside the arrays; on the first record of
equal name `strcmp` runs to the terminator of the name, and the eight `copy_string`
calls follow.  When no name is equal nothing else is read as a string (`memcpy`
copies the arrays as they are). -/
def add_dev_reads_ok (new_dev : config_device) : List config_device → Bool
  | [] => true
  | dev :: rest =>
    if dev.name = new_dev.name then
      decide (dev.name.length < NAME_SIZE) &&
      copy_string_ok BUS_SIZE new_dev.bus dev.bus &&
      copy_string_ok FILE_SIZE new_dev.sysfs_file dev.sysfs_file &&
      copy_string_ok VALUE_SIZE new_dev.sysfs_value dev.sysfs_value &&
      copy_string_ok ID_SIZE new_dev.id dev.id &&
      copy_string_ok PLACE_SIZE new_dev.place dev.place &&
      copy_string_ok NAME_SIZE new_dev.kernel_name dev.kernel_name &&
      copy_string_ok OWNER_SIZE new_dev.owner dev.owner &&
      copy_string_ok GROUP_SIZE new_dev.group dev.group
    else add_dev_reads_ok new_dev rest

/-- The tail of both loop bodies: `retval = add_dev(&dev); if (retval) goto exit;`.
The call has no defined result when `add_dev` reads past an array that `strncpy`
left without terminator. -/
def add_dev_step (malloc_ok : Bool) (dev : config_device) (list : List config_device) :
    LineResult :=
  if add_dev_reads_ok dev list then
    let r := add_dev malloc_ok dev list
    if r.1 ≠ 0 then LineResult.exit r.1 r.2 else LineResult.next r.1 r.2
  else LineResult.undefined

/-- The four `if` blocks of the loop body of `namedev_init_config`, one after the
other as in the source. -/
def config_blocks (st : Locals) : Flow :=
  (((bus_block TYPE_LABEL config_type.LABEL st).andThen
    (bus_block TYPE_NUMBER config_type.NUMBER)).andThen
    (bus_block TYPE_TOPOLOGY config_type.TOPOLOGY)).andThen replace_block

/-- The end of the loop body of `namedev_init_config` after the four blocks: a
`continue` taken inside a block enters the next iteration with the `retval` it left,
otherwise `dev` goes to `add_dev`. -/
def config_finish (malloc_ok : Bool) (list : List config_device) (flow : Flow) : LineResult :=
  match flow with
  | Flow.undefined => LineResult.undefined
  | Flow.skip r => LineResult.next r list
  | Flow.fall st => add_dev_step malloc_ok st.dev list

/-- One pass through the loop body of `namedev_init_config` on the line `line` that
`fgets` has stored; `cc` is `COMMENT_CHARACTER`, `retval` the value the variable has
on entry, `list` the registry. -/
def config_line (cc : Char) (malloc_ok : Bool) (line : List Char) (retval : Int)
    (list : List config_device) : LineResult :=
  let temp := eat_whitespace line 0
  if peek line temp = NUL then LineResult.next retval list
  else if peek line temp = cc then LineResult.next retval list
  else
    let s := strsep line (some temp) ','
    config_finish malloc_ok list (config_blocks ⟨s.buf, s.stringp, s.token, none, retval, zero_dev⟩)

/-- The `while (1)` loop of a loader over the chunks that `fgets` returns, `body`
being one pass; `malloc_ok i` tells whether a `malloc` made for the `i`-th remaining
chunk succeeds.  `none` when a pass has no defined result. -/
def load_loop (body : Bool → List Char → Int → List config_device → LineResult) :
    (Nat → Bool) → List (List Char) → Int → List config_device →
      Option (Int × List config_device)
  | _, [], retval, list => some (retval, list)
  | malloc_ok, line :: rest, retval, list =>
    match body (malloc_ok 0) line retval list with
    | LineResult.undefined => none
    | LineResult.exit r l => some (r, l)
    | LineResult.next r l => load_loop body (fun i => malloc_ok (i + 1)) rest r l

/-- `namedev_init_config()`: `file` is `none` when `fopen` fails, else the text of the
naming-rule file, given in pieces (its lines, say) that are read one after the other:
`fgets(line, sizeof(line), fd)` with `char line[255]` cuts the text into chunks itself.
Returns the return value and the registry afterwards. -/
def namedev_init_config (cc : Char) (malloc_ok : Nat → Bool) (file : Option (List (List Char)))
    (list : List config_device) : Option (Int × List config_device) :=
  match file with
  | none => some (-ENODEV, list)
  | some text => load_loop (config_line cc) malloc_ok (fgets_from 255 text.flatten []) 0 list

/-! ## The permissions loader: `namedev_init_permissions` -/

/-- One pass through the loop body of `namedev_init_permissions`; a token pointer that
is NULL makes `strncpy` or `strtol` read from NULL. -/
def permissions_line (cc : Char) (malloc_ok : Bool) (line : List Char) (retval : Int)
    (list : List config_device) : LineResult :=
  let temp := eat_whitespace line 0
  if peek line temp = NUL then LineResult.next retval list
  else if peek line temp = cc then LineResult.next retval list
  else
    let s1 := strsep line (some temp) ':'
    match s1.token.map (fun p => strncpy_field NAME_SIZE (cstr s1.buf p)) with
    | none => LineResult.undefined
    | some name =>
      let s2 := strsep s1.buf s1.stringp ':'
      match s2.token.map (fun p => strncpy_field OWNER_SIZE (cstr s2.buf p)) with
      | none => LineResult.undefined
      | some owner =>
        let s3 := strsep s2.buf s2.stringp ':'
        match s3.token.map (fun p => strncpy_field OWNER_SIZE (cstr s3.buf p)) with
        | none => LineResult.undefined
        | some group =>
          match s3.stringp with
          | none => LineResult.undefined
          | some p =>
            let mode := long_to_int (strtol8 (cstr s3.buf p))
            add_dev_step malloc_ok
              { zero_dev with name := name, owner := owner, group := group, mode := mode } list

/-- `namedev_init_permissions()`: `file` is `none` when `fopen` fails, else the text of
the permissions file in pieces, cut into chunks by `fgets` with `char line[255]`. -/
def namedev_init_permissions (cc : Char) (malloc_ok : Nat → Bool)
    (file : Option (List (List Char))) (list : List config_device) :
    Option (Int × List config_device) :=
  match file with
  | none => some (-ENODEV, list)
  | some text => load_loop (permissions_line cc) malloc_ok (fgets_from 255 text.flatten []) 0 list

/-- `namedev_init()`: the naming-rule loader, then, when it returned 0, the
permissions loader. -/
def namedev_init (cc : Char) (malloc_config malloc_perm : Nat → Bool)
    (config_file permissions_file : Option (List (List Char))) (list : List config_device) :
    Option (Int × List config_device) :=
  match namedev_init_config cc malloc_config config_file list with
  | none => none
  | some (retval, list1) =>
    if retval ≠ 0 then some (retval, list1)
    else namedev_init_permissions cc malloc_perm permissions_file list1

/-! ## Proof devices -/

/-- The locals with `retval` set to 0.  The loop body writes the local `retval` of
`Locals` and never reads it; two runs are compared after clearing it. -/
def Locals.clear_retval (s : Locals) : Locals := { s with retval := 0 }

/-- The flow with the `retval` of the locals cleared; the value carried by a `continue`
is kept. -/
def Flow.clear_retval : Flow → Flow
  | Flow.fall s => Flow.fall s.clear_retval
  | Flow.skip r => Flow.skip r
  | Flow.undefined => Flow.undefined

theorem takeWhile_all (f : Char → Bool) :
    ∀ (l : List Char), (∀ c ∈ l, f c = true) → l.takeWhile f = l
  | [], _ => rfl
  | a :: as, h => by
    rw [List.takeWhile_cons_of_pos (h a (by simp)),
      takeWhile_all f as (fun c hc => h c (by simp [hc]))]

theorem peek_at (pre rest : List Char) (c : Char) (p : Nat) (hp : p = pre.length) :
    peek (pre ++ c :: rest) p = c := by
  subst hp
  have h : (pre ++ c :: rest)[pre.length]? = some c := by
    rw [List.getElem?_append_right (Nat.le_refl _)]
    simp
  simp [peek, List.getD_eq_getElem?_getD, h]

theorem peek_end (pre : List Char) (p : Nat) (hp : p = pre.length) :
    peek pre p = NUL := by
  subst hp
  simp [peek, List.getD_eq_getElem?_getD]

theorem set_at (pre rest : List Char) (c d : Char) (p : Nat) (hp : p = pre.length) :
    (pre ++ c :: rest).set p d = pre ++ d :: rest := by
  subst hp
  simp

theorem cstr_at (pre tok rest : List Char) (p : Nat) (hp : p = pre.length)
    (htok : ∀ c ∈ tok, c ≠ NUL) : cstr (pre ++ (tok ++ NUL :: rest)) p = tok := by
  subst hp
  simp only [cstr, List.drop_left]
  rw [List.takeWhile_append_of_pos (by simpa using htok)]
  simp

theorem cstr_at_end (pre tok : List Char) (p : Nat) (hp : p = pre.length)
    (htok : ∀ c ∈ tok, c ≠ NUL) : cstr (pre ++ tok) p = tok := by
  subst hp
  simp only [cstr, List.drop_left]
  rw [takeWhile_all (fun c => c != NUL) tok (by simpa using htok)]

theorem eat_whitespace_at (pre w rest : List Char) (p : Nat) (hp : p = pre.length)
    (hw : ∀ c ∈ w, isspace c = true) (hrest : ∀ c, rest.head? = some c → isspace c = false) :
    eat_whitespace (pre ++ (w ++ rest)) p = p + w.length := by
  subst hp
  simp only [eat_whitespace, List.drop_left]
  rw [List.takeWhile_append_of_pos hw]
  cases rest with
  | nil => simp
  | cons c cs => simp [List.takeWhile_cons, hrest c rfl]

theorem strsep_found (pre tok rest : List Char) (d : Char) (p : Nat) (hp : p = pre.length)
    (hd : d ≠ NUL) (htok : ∀ c ∈ tok, c ≠ NUL ∧ c ≠ d) :
    strsep (pre ++ (tok ++ d :: rest)) (some p) d =
      ⟨pre ++ (tok ++ NUL :: rest), some (p + tok.length + 1), some p⟩ := by
  subst hp
  have htake : ((tok ++ d :: rest).takeWhile (fun c => c != NUL && c != d)) = tok := by
    rw [List.takeWhile_append_of_pos (by simpa using htok)]
    simp
  have hq : pre.length + tok.length = (pre ++ tok).length := by simp
  simp only [strsep, List.drop_left, htake]
  rw [hq, ← List.append_assoc, peek_at (pre ++ tok) rest d _ rfl, if_neg hd,
    set_at (pre ++ tok) rest d NUL _ rfl, List.append_assoc]

theorem strsep_not_found (pre tok : List Char) (d : Char) (p : Nat) (hp : p = pre.length)
    (htok : ∀ c ∈ tok, c ≠ NUL ∧ c ≠ d) :
    strsep (pre ++ tok) (some p) d = ⟨pre ++ tok, none, some p⟩ := by
  subst hp
  have htake : (tok.takeWhile (fun c => c != NUL && c != d)) = tok :=
    takeWhile_all (fun c => c != NUL && c != d) tok (by simpa using htok)
  have hq : pre.length + tok.length = (pre ++ tok).length := by simp
  simp only [strsep, List.drop_left, htake]
  rw [hq, peek_end (pre ++ tok) _ rfl, if_pos rfl]

theorem head_append_not_space (t rest : List Char) (d : Char) (hd : isspace d = false)
    (ht : ∀ c, t.head? = some c → isspace c = false) :
    ∀ c, (t ++ d :: rest).head? = some c → isspace c = false := by
  intro c hc
  cases t with
  | nil => simp at hc; subst hc; exact hd
  | cons a as => simp at hc; subst hc; exact ht a rfl

theorem get_value_extract (K K' pre w1 w2 v s : List Char) (p : Nat) (ret : Option Nat)
    (hp : p = pre.length) (hK : strcasecmp_eq K' K = true)
    (hK' : ∀ c ∈ K', c ≠ NUL ∧ c ≠ '=')
    (hhead : ∀ c, K'.head? = some c → isspace c = false)
    (hw1 : ∀ c ∈ w1, isspace c = true) (hw2 : ∀ c ∈ w2, isspace c = true)
    (hv : ∀ c ∈ v, c ≠ NUL ∧ c ≠ '"') :
    get_value K (pre ++ (w1 ++ (K' ++ '=' :: (w2 ++ '"' :: (v ++ '"' :: s))))) (some p) ret =
      some ⟨0, pre ++ (w1 ++ (K' ++ NUL :: (w2 ++ '"' :: (v ++ NUL :: s)))),
        some (p + w1.length + K'.length + 1 + w2.length + 1 + v.length + 1),
        some (p + w1.length + K'.length + 1 + w2.length + 1)⟩ := by
  subst hp
  have e1 : eat_whitespace (pre ++ (w1 ++ (K' ++ '=' :: (w2 ++ '"' :: (v ++ '"' :: s)))))
      pre.length = (pre ++ w1).length := by
    rw [eat_whitespace_at pre w1 _ _ rfl hw1
      (head_append_not_space K' _ '=' (by decide) hhead)]
    simp
  have e2 : strsep (pre ++ (w1 ++ (K' ++ '=' :: (w2 ++ '"' :: (v ++ '"' :: s)))))
      (some (pre ++ w1).length) '=' =
      ⟨(pre ++ w1) ++ (K' ++ NUL :: (w2 ++ '"' :: (v ++ '"' :: s))),
        some ((pre ++ w1).length + K'.length + 1), some (pre ++ w1).length⟩ := by
    rw [← List.append_assoc]
    exact strsep_found (pre ++ w1) K' _ '=' _ rfl (by decide) hK'
  have e3 : cstr ((pre ++ w1) ++ (K' ++ NUL :: (w2 ++ '"' :: (v ++ '"' :: s))))
      (pre ++ w1).length = K' :=
    cstr_at (pre ++ w1) K' _ _ rfl (fun c hc => (hK' c hc).1)
  have e4 : eat_whitespace ((pre ++ w1) ++ (K' ++ NUL :: (w2 ++ '"' :: (v ++ '"' :: s))))
      ((pre ++ w1).length + K'.length + 1) = (pre ++ w1 ++ K' ++ [NUL] ++ w2).length := by
    have h := eat_whitespace_at (pre ++ w1 ++ K' ++ [NUL]) w2 ('"' :: (v ++ '"' :: s))
      ((pre ++ w1).length + K'.length + 1)
      (by simp only [List.length_append, List.length_cons, List.length_nil]) hw2
      (by intro c hc; simp at hc; subst hc; decide)
    simp only [List.append_assoc, List.singleton_append] at h ⊢
    rw [h]
    simp
    omega
  have e5 : peek ((pre ++ w1) ++ (K' ++ NUL :: (w2 ++ '"' :: (v ++ '"' :: s))))
      (pre ++ w1 ++ K' ++ [NUL] ++ w2).length = '"' := by
    have h := peek_at (pre ++ w1 ++ K' ++ [NUL] ++ w2) (v ++ '"' :: s) '"' _ rfl
    simpa only [List.append_assoc, List.singleton_append] using h
  have e6 : strsep ((pre ++ w1) ++ (K' ++ NUL :: (w2 ++ '"' :: (v ++ '"' :: s))))
      (some ((pre ++ w1 ++ K' ++ [NUL] ++ w2).length + 1)) '"' =
      ⟨pre ++ (w1 ++ (K' ++ NUL :: (w2 ++ '"' :: (v ++ NUL :: s)))),
        some ((pre ++ w1 ++ K' ++ [NUL] ++ w2).length + 1 + v.length + 1),
        some ((pre ++ w1 ++ K' ++ [NUL] ++ w2).length + 1)⟩ := by
    have h := strsep_found (pre ++ w1 ++ K' ++ [NUL] ++ w2 ++ ['"']) v s '"'
      ((pre ++ w1 ++ K' ++ [NUL] ++ w2).length + 1)
      (by simp only [List.length_append, List.length_cons, List.length_nil]) (by decide) hv
    simpa only [List.append_assoc, List.singleton_append] using h
  simp only [get_value, e1, e2, e3, hK, e4, e5, e6, if_true]
  simp
  omega

theorem get_value_mismatch (K pre w t r : List Char) (p : Nat) (ret : Option Nat)
    (hp : p = pre.length) (hw : ∀ c ∈ w, isspace c = true)
    (ht : ∀ c ∈ t, c ≠ NUL ∧ c ≠ '=')
    (hhead : ∀ c, t.head? = some c → isspace c = false)
    (hmis : strcasecmp_eq t K = false) :
    get_value K (pre ++ (w ++ (t ++ '=' :: r))) (some p) ret =
      some ⟨-ENODEV, pre ++ (w ++ (t ++ NUL :: r)), some p, ret⟩ := by
  subst hp
  have e1 : eat_whitespace (pre ++ (w ++ (t ++ '=' :: r))) pre.length = (pre ++ w).length := by
    rw [eat_whitespace_at pre w _ _ rfl hw (head_append_not_space t _ '=' (by decide) hhead)]
    simp
  have e2 : strsep (pre ++ (w ++ (t ++ '=' :: r))) (some (pre ++ w).length) '=' =
      ⟨(pre ++ w) ++ (t ++ NUL :: r), some ((pre ++ w).length + t.length + 1),
        some (pre ++ w).length⟩ := by
    rw [← List.append_assoc]
    exact strsep_found (pre ++ w) t _ '=' _ rfl (by decide) ht
  have e3 : cstr ((pre ++ w) ++ (t ++ NUL :: r)) (pre ++ w).length = t :=
    cstr_at (pre ++ w) t _ _ rfl (fun c hc => (ht c hc).1)
  simp only [get_value, e1, e2, e3, hmis]
  simp

theorem get_value_mismatch_end (K pre w t : List Char) (p : Nat) (ret : Option Nat)
    (hp : p = pre.length) (hw : ∀ c ∈ w, isspace c = true)
    (ht : ∀ c ∈ t, c ≠ NUL ∧ c ≠ '=')
    (hhead : ∀ c, t.head? = some c → isspace c = false)
    (hmis : strcasecmp_eq t K = false) :
    get_value K (pre ++ (w ++ t)) (some p) ret =
      some ⟨-ENODEV, pre ++ (w ++ t), some p, ret⟩ := by
  subst hp
  have e1 : eat_whitespace (pre ++ (w ++ t)) pre.length = (pre ++ w).length := by
    rw [eat_whitespace_at pre w _ _ rfl hw hhead]
    simp
  have e2 : strsep (pre ++ (w ++ t)) (some (pre ++ w).length) '=' =
      ⟨(pre ++ w) ++ t, none, some (pre ++ w).length⟩ := by
    rw [← List.append_assoc]
    exact strsep_not_found (pre ++ w) t '=' _ rfl ht
  have e3 : cstr ((pre ++ w) ++ t) (pre ++ w).length = t :=
    cstr_at_end (pre ++ w) t _ rfl (fun c hc => (ht c hc).1)
  simp only [get_value, e1, e2, e3, hmis]
  simp

/-! ## Lemmas on the registry -/

theorem merge_dev_name (new_dev dev : config_device) : (merge_dev new_dev dev).name = dev.name := by
  simp only [merge_dev, copy_var_type, copy_var_mode]
  split <;> split <;> rfl

theorem add_dev_scan_names (new_dev : config_device) :
    ∀ (l l' : List config_device), add_dev_scan new_dev l = some l' →
      l'.map (fun d => d.name) = l.map (fun d => d.name)
  | [], l', h => by simp [add_dev_scan] at h
  | dev :: rest, l', h => by
    simp only [add_dev_scan] at h
    split at h
    · cases h
      simp [merge_dev_name]
    · cases hr : add_dev_scan new_dev rest with
      | none => simp [hr] at h
      | some r =>
        simp [hr] at h
        subst h
        simp [add_dev_scan_names new_dev rest r hr]

theorem add_dev_scan_none (new_dev : config_device) :
    ∀ (l : List config_device), add_dev_scan new_dev l = none ↔ ∀ d ∈ l, d.name ≠ new_dev.name
  | [] => by simp [add_dev_scan]
  | dev :: rest => by
    simp only [add_dev_scan]
    split
    · rename_i h
      simp [h]
    · rename_i h
      simp [h, add_dev_scan_none new_dev rest]

theorem add_dev_nodup (malloc_ok : Bool) (new_dev : config_device) (l : List config_device)
    (h : (l.map (fun d => d.name)).Nodup) :
    ((add_dev malloc_ok new_dev l).2.map (fun d => d.name)).Nodup := by
  unfold add_dev
  cases hs : add_dev_scan new_dev l with
  | some l' =>
    simp only
    rw [add_dev_scan_names new_dev l l' hs]
    exact h
  | none =>
    simp only
    split
    · simp only [List.map_cons, List.nodup_cons]
      refine ⟨?_, h⟩
      intro hmem
      rcases List.mem_map.1 hmem with ⟨d, hd, hname⟩
      exact (add_dev_scan_none new_dev l).1 hs d hd hname
    · exact h

/-! ## Lemmas on the loop body of the naming-rule loader -/

theorem add_dev_reads_ok_fresh (dev : config_device) :
    ∀ (list : List config_device), (∀ d ∈ list, d.name ≠ dev.name) →
      add_dev_reads_ok dev list = true
  | [], _ => rfl
  | d :: rest, h => by
    rw [add_dev_reads_ok, if_neg (h d (by simp))]
    exact add_dev_reads_ok_fresh dev rest (fun x hx => h x (by simp [hx]))

theorem add_dev_step_fresh (dev : config_device) (list : List config_device)
    (h : ∀ d ∈ list, d.name ≠ dev.name) :
    add_dev_step true dev list = LineResult.next 0 (dev :: list) := by
  simp [add_dev_step, add_dev, (add_dev_scan_none dev list).2 h, add_dev_reads_ok_fresh dev list h]

theorem replace_block_load (pre k n s : List Char) (st : Locals)
    (hline : st.line = pre ++ ("KERNEL=\"".toList ++ (k ++ ("\",NAME=\"".toList ++ (n ++ '"' :: s)))))
    (htemp : st.temp = some pre.length)
    (hkw : strcasecmp_at st.line st.temp2 TYPE_REPLACE = some true)
    (hk : ∀ c ∈ k, c ≠ NUL ∧ c ≠ '"') (hklen : k.length < NAME_SIZE)
    (hn : ∀ c ∈ n, c ≠ NUL ∧ c ≠ '"') (hnlen : n.length < NAME_SIZE) :
    ∃ st1, replace_block st = Flow.fall st1 ∧
      st1.dev = { st.dev with type := config_type.REPLACE, kernel_name := k, name := n } := by
  obtain ⟨line, temp, temp2, temp3, retval, dev⟩ := st
  simp only at hline htemp hkw
  subst htemp
  have g1 := get_value_extract "KERNEL".toList "KERNEL".toList pre [] [] k
    (',' :: ("NAME=\"".toList ++ (n ++ '"' :: s))) pre.length temp3 rfl (by decide)
    (by decide) (by decide) (by simp) (by simp) hk
  have c1 := cstr_at (pre ++ ("KERNEL".toList ++ [NUL, '"'])) k
    (',' :: ("NAME=\"".toList ++ (n ++ '"' :: s))) (pre.length + 8) (by simp) (fun c hc => (hk c hc).1)
  have s1 := strsep_found (pre ++ ("KERNEL".toList ++ (NUL :: '"' :: (k ++ [NUL])))) []
    ("NAME=\"".toList ++ (n ++ '"' :: s)) ',' (pre.length + 8 + k.length + 1) (by simp; omega)
    (by decide) (by simp)
  have g2 := get_value_extract "NAME".toList "NAME".toList
    (pre ++ ("KERNEL".toList ++ (NUL :: '"' :: (k ++ [NUL, NUL])))) [] [] n s
    (pre.length + 8 + k.length + 1 + 1) (some (pre.length + 8)) (by simp; omega) (by decide)
    (by decide) (by decide) (by simp) (by simp) hn
  have c2 := cstr_at (pre ++ ("KERNEL".toList ++ (NUL :: '"' :: (k ++ (NUL :: NUL :: ("NAME".toList ++ [NUL, '"'])))))) n s
    (pre.length + 8 + k.length + 1 + 1 + 6) (by simp; omega) (fun c hc => (hn c hc).1)
  have f1 : strcpy_field NAME_SIZE k = some k := by simp [strcpy_field, hklen]
  have f2 : strcpy_field NAME_SIZE n = some n := by simp [strcpy_field, hnlen]
  simp only [String.toList, List.append_assoc, List.cons_append, List.nil_append, List.length_nil,
    List.length_cons, Nat.add_zero, Nat.zero_add, Nat.add_assoc, Nat.reduceAdd] at g1 c1 s1 g2 c2 hline
  subst hline
  simp only [replace_block, hkw, String.toList, g1, c1, f1, s1, g2, c2, f2]
  simp

/-- The loop body on a line that starts with a keyword followed by a comma. -/
theorem config_line_keyword (cc : Char) (malloc_ok : Bool) (a : Char) (kw rest : List Char)
    (retval : Int) (list : List config_device)
    (ha : isspace a = false) (hcc : a ≠ cc)
    (hkw : ∀ c ∈ a :: kw, c ≠ NUL ∧ c ≠ ',') :
    config_line cc malloc_ok (a :: kw ++ ',' :: rest) retval list =
      config_finish malloc_ok list
        (config_blocks ⟨a :: kw ++ NUL :: rest, some (kw.length + 2), some 0, none, retval,
          zero_dev⟩) := by
  have e0 : eat_whitespace (a :: kw ++ ',' :: rest) 0 = 0 := by
    have h := eat_whitespace_at [] [] (a :: kw ++ ',' :: rest) 0 rfl (by simp)
      (by intro c hc; simp at hc; subst hc; exact ha)
    simpa using h
  have p0 : peek (a :: kw ++ ',' :: rest) 0 = a := peek_at [] _ a 0 rfl
  have s0 : strsep (a :: kw ++ ',' :: rest) (some 0) ',' =
      ⟨a :: kw ++ NUL :: rest, some (kw.length + 2), some 0⟩ := by
    have h := strsep_found [] (a :: kw) rest ',' 0 rfl (by decide) hkw
    simpa using h
  have hN : a ≠ NUL := (hkw a (by simp)).1
  simp only [config_line, e0, p0, s0, if_neg hN, if_neg hcc]

theorem bus_block_other (kw : List Char) (t : config_type) (st : Locals) (tok : List Char)
    (p : Nat) (htemp2 : st.temp2 = some p) (htok : cstr st.line p = tok)
    (hne : strcasecmp_eq tok kw = false) : bus_block kw t st = Flow.fall st := by
  simp [bus_block, strcasecmp_at, htemp2, htok, hne]

/-! ## Lemmas on the merge -/

theorem clear_retval_eq (s1 s2 : Locals) (h : s1.clear_retval = s2.clear_retval) :
    s2 = { s1 with retval := s2.retval } := by
  cases s1
  cases s2
  simp only [Locals.clear_retval, Locals.mk.injEq] at h
  obtain ⟨h1, h2, h3, h4, _, h6⟩ := h
  subst h1 h2 h3 h4 h6
  rfl

theorem bus_block_clear_retval (kw : List Char) (t : config_type) (s : Locals) (r : Int) :
    (bus_block kw t { s with retval := r }).clear_retval = (bus_block kw t s).clear_retval := by
  simp only [bus_block]
  cases strcasecmp_at s.line s.temp2 kw with
  | none => rfl
  | some b =>
    cases b with
    | false => rfl
    | true => rfl

theorem replace_block_clear_retval (s : Locals) (r : Int) :
    (replace_block { s with retval := r }).clear_retval = (replace_block s).clear_retval := by
  simp only [replace_block]
  cases strcasecmp_at s.line s.temp2 TYPE_REPLACE with
  | none => rfl
  | some b =>
    cases b with
    | false => rfl
    | true => rfl

theorem andThen_clear_retval (f1 f2 : Flow) (g : Locals → Flow)
    (hf : f1.clear_retval = f2.clear_retval)
    (hg : ∀ s r, (g { s with retval := r }).clear_retval = (g s).clear_retval) :
    (f1.andThen g).clear_retval = (f2.andThen g).clear_retval := by
  cases f1 with
  | fall s1 =>
    cases f2 with
    | fall s2 =>
      simp only [Flow.clear_retval, Flow.fall.injEq] at hf
      rw [clear_retval_eq s1 s2 hf]
      simp only [Flow.andThen]
      exact (hg s1 s2.retval).symm
    | skip r => simp [Flow.clear_retval] at hf
    | undefined => simp [Flow.clear_retval] at hf
  | skip r1 =>
    cases f2 with
    | fall s2 => simp [Flow.clear_retval] at hf
    | skip r2 => simpa [Flow.clear_retval, Flow.andThen] using hf
    | undefined => simp [Flow.clear_retval] at hf
  | undefined =>
    cases f2 with
    | fall s2 => simp [Flow.clear_retval] at hf
    | skip r2 => simp [Flow.clear_retval] at hf
    | undefined => rfl

theorem config_blocks_clear_retval (s : Locals) (r : Int) :
    (config_blocks { s with retval := r }).clear_retval = (config_blocks s).clear_retval := by
  simp only [config_blocks]
  exact andThen_clear_retval _ _ _
    (andThen_clear_retval _ _ _
      (andThen_clear_retval _ _ _ (bus_block_clear_retval _ _ s r)
        (bus_block_clear_retval _ _))
      (bus_block_clear_retval _ _))
    replace_block_clear_retval

theorem config_finish_clear_retval (malloc_ok : Bool) (list : List config_device)
    (f1 f2 : Flow) (h : f1.clear_retval = f2.clear_retval) :
    config_finish malloc_ok list f1 = config_finish malloc_ok list f2 := by
  cases f1 with
  | fall s1 =>
    cases f2 with
    | fall s2 =>
      simp only [Flow.clear_retval, Flow.fall.injEq] at h
      rw [clear_retval_eq s1 s2 h]
      rfl
    | skip r => simp [Flow.clear_retval] at h
    | undefined => simp [Flow.clear_retval] at h
  | skip r1 =>
    cases f2 with
    | fall s2 => simp [Flow.clear_retval] at h
    | skip r2 =>
      simp only [Flow.clear_retval, Flow.skip.injEq] at h
      rw [h]
    | undefined => simp [Flow.clear_retval] at h
  | undefined =>
    cases f2 with
    | fall s2 => simp [Flow.clear_retval] at h
    | skip r2 => simp [Flow.clear_retval] at h
    | undefined => rfl

theorem config_line_retval (cc : Char) (malloc_ok : Bool) (line : List Char) (r1 r2 : Int)
    (list : List config_device) :
    config_line cc malloc_ok line r1 list = config_line cc malloc_ok line r2 list ∨
      (config_line cc malloc_ok line r1 list = LineResult.next r1 list ∧
        config_line cc malloc_ok line r2 list = LineResult.next r2 list) := by
  simp only [config_line]
  by_cases h0 : peek line (eat_whitespace line 0) = NUL
  · right
    simp [h0]
  · by_cases h1 : peek line (eat_whitespace line 0) = cc
    · right
      simp [h0, h1]
    · left
      simp only [h0, h1, if_false]
      exact config_finish_clear_retval malloc_ok list _ _
        ((config_blocks_clear_retval ⟨_, _, _, none, r2, zero_dev⟩ r1).trans rfl)

theorem config_loop_retval (cc : Char) :
    ∀ (lines : List (List Char)) (malloc_ok : Nat → Bool) (r1 r2 : Int)
      (list : List config_device),
      (load_loop (config_line cc) malloc_ok lines r1 list).map Prod.snd =
        (load_loop (config_line cc) malloc_ok lines r2 list).map Prod.snd
  | [], _, _, _, _ => rfl
  | line :: rest, malloc_ok, r1, r2, list => by
    rcases config_line_retval cc (malloc_ok 0) line r1 r2 list with h | ⟨h1, h2⟩
    · simp only [load_loop, h]
    · simp only [load_loop, h1, h2]
      exact config_loop_retval cc rest _ r1 r2 list

/-! ## Lemmas on lines of the naming-rule file that begin with a keyword -/

theorem lower_char_facts (c : Char) (h : (tolower c).isLower = true) :
    c ≠ NUL ∧ c ≠ ',' ∧ isspace c = false := by
  refine ⟨?_, ?_, ?_⟩
  · rintro rfl
    revert h
    decide
  · rintro rfl
    revert h
    decide
  · cases hs : isspace c with
    | false => rfl
    | true =>
      simp only [isspace, Bool.or_eq_true, beq_iff_eq] at hs
      rcases hs with ((((rfl | rfl) | rfl) | rfl) | rfl) | rfl <;> revert h <;> decide

theorem keyword_chars (kw kw' : List Char)
    (hkw : kw = TYPE_LABEL ∨ kw = TYPE_NUMBER ∨ kw = TYPE_TOPOLOGY)
    (hkw' : kw'.map tolower = kw.map tolower) :
    ∀ c ∈ kw', c ≠ NUL ∧ c ≠ ',' ∧ isspace c = false := by
  intro c hc
  have hmem : tolower c ∈ kw.map tolower := hkw' ▸ List.mem_map_of_mem tolower hc
  apply lower_char_facts
  generalize tolower c = x at hmem
  rcases hkw with rfl | rfl | rfl
  · have hall : ∀ y ∈ TYPE_LABEL.map tolower, y.isLower = true := by decide
    exact hall x hmem
  · have hall : ∀ y ∈ TYPE_NUMBER.map tolower, y.isLower = true := by decide
    exact hall x hmem
  · have hall : ∀ y ∈ TYPE_TOPOLOGY.map tolower, y.isLower = true := by decide
    exact hall x hmem

/-- The loop body on a line that starts, after whitespace, with a keyword followed by a
comma. -/
theorem config_line_keyword_ws (cc : Char) (malloc_ok : Bool) (a : Char)
    (w0 ks rest : List Char) (retval : Int) (list : List config_device)
    (hw0 : ∀ c ∈ w0, isspace c = true) (ha : isspace a = false)
    (hks : ∀ c ∈ a :: ks, c ≠ NUL ∧ c ≠ ',') :
    config_line cc malloc_ok (w0 ++ ((a :: ks) ++ ',' :: rest)) retval list =
      if a = cc then LineResult.next retval list
      else config_finish malloc_ok list
        (config_blocks ⟨w0 ++ ((a :: ks) ++ NUL :: rest), some (w0.length + (a :: ks).length + 1),
          some w0.length, none, retval, zero_dev⟩) := by
  have e0 : eat_whitespace (w0 ++ ((a :: ks) ++ ',' :: rest)) 0 = w0.length := by
    have h := eat_whitespace_at [] w0 ((a :: ks) ++ ',' :: rest) 0 rfl hw0
      (by intro c hc; simp at hc; subst hc; exact ha)
    simpa using h
  have p0 : peek (w0 ++ ((a :: ks) ++ ',' :: rest)) w0.length = a :=
    peek_at w0 (ks ++ ',' :: rest) a _ rfl
  have s0 := strsep_found w0 (a :: ks) rest ',' w0.length rfl (by decide) hks
  have hN : a ≠ NUL := (hks a (by simp)).1
  simp only [config_line, e0, p0, s0, if_neg hN]

theorem bus_block_skips (kw : List Char) (t : config_type) (st : Locals)
    (pre w tk r tok : List Char) (p : Nat)
    (htemp2 : st.temp2 = some p) (htok : cstr st.line p = tok)
    (heq : strcasecmp_eq tok kw = true)
    (hline : st.line = pre ++ (w ++ (tk ++ '=' :: r))) (htemp : st.temp = some pre.length)
    (hw : ∀ c ∈ w, isspace c = true) (htk : ∀ c ∈ tk, c ≠ NUL ∧ c ≠ '=')
    (hhead : ∀ c, tk.head? = some c → isspace c = false)
    (hmis : strcasecmp_eq tk "BUS".toList = false) :
    bus_block kw t st = Flow.skip (-ENODEV) := by
  have hg := get_value_mismatch "BUS".toList pre w tk r pre.length st.temp3 rfl hw htk hhead hmis
  rw [← hline] at hg
  simp only [bus_block, strcasecmp_at, htemp2, Option.map_some', htok, heq, htemp, hg]
  simp [ENODEV]

theorem config_blocks_malformed (kw : List Char) (st : Locals) (pre w tk r tok : List Char)
    (p : Nat) (hkw : kw = TYPE_LABEL ∨ kw = TYPE_NUMBER ∨ kw = TYPE_TOPOLOGY)
    (htemp2 : st.temp2 = some p) (htok : cstr st.line p = tok)
    (heq : tok.map tolower = kw.map tolower)
    (hline : st.line = pre ++ (w ++ (tk ++ '=' :: r))) (htemp : st.temp = some pre.length)
    (hw : ∀ c ∈ w, isspace c = true) (htk : ∀ c ∈ tk, c ≠ NUL ∧ c ≠ '=')
    (hhead : ∀ c, tk.head? = some c → isspace c = false)
    (hmis : strcasecmp_eq tk "BUS".toList = false) :
    config_blocks st = Flow.skip (-ENODEV) := by
  rcases hkw with rfl | rfl | rfl
  · rw [config_blocks, bus_block_skips TYPE_LABEL _ st pre w tk r tok p htemp2 htok
      (by simp [strcasecmp_eq, heq]) hline htemp hw htk hhead hmis]
    rfl
  · rw [config_blocks, bus_block_other TYPE_LABEL _ st tok p htemp2 htok
      (by simp only [strcasecmp_eq, heq]; decide)]
    simp only [Flow.andThen]
    rw [bus_block_skips TYPE_NUMBER _ st pre w tk r tok p htemp2 htok
      (by simp [strcasecmp_eq, heq]) hline htemp hw htk hhead hmis]
  · rw [config_blocks, bus_block_other TYPE_LABEL _ st tok p htemp2 htok
      (by simp only [strcasecmp_eq, heq]; decide)]
    simp only [Flow.andThen]
    rw [bus_block_other TYPE_NUMBER _ st tok p htemp2 htok
      (by simp only [strcasecmp_eq, heq]; decide)]
    simp only [Flow.andThen]
    rw [bus_block_skips TYPE_TOPOLOGY _ st pre w tk r tok p htemp2 htok
      (by simp [strcasecmp_eq, heq]) hline htemp hw htk hhead hmis]

theorem config_line_malformed (cc : Char) (malloc_ok : Bool) (kw kw' w0 w t r : List Char)
    (retval : Int) (list : List config_device)
    (hkw : kw = TYPE_LABEL ∨ kw = TYPE_NUMBER ∨ kw = TYPE_TOPOLOGY)
    (hkw' : kw'.map tolower = kw.map tolower)
    (hw0 : ∀ c ∈ w0, isspace c = true) (hw : ∀ c ∈ w, isspace c = true)
    (ht : ∀ c ∈ t, c ≠ NUL ∧ c ≠ '=')
    (hhead : ∀ c, t.head? = some c → isspace c = false)
    (hmis : t.map tolower ≠ "BUS".toList.map tolower) :
    ∃ r', config_line cc malloc_ok (w0 ++ (kw' ++ ',' :: (w ++ (t ++ '=' :: r)))) retval list =
      LineResult.next r' list := by
  have hch := keyword_chars kw kw' hkw hkw'
  cases kw' with
  | nil =>
    rcases hkw with rfl | rfl | rfl <;> simp [TYPE_LABEL, TYPE_NUMBER, TYPE_TOPOLOGY] at hkw'
  | cons a ks =>
    rw [config_line_keyword_ws cc malloc_ok a w0 ks _ retval list hw0 (hch a (by simp)).2.2
      (fun c hc => ⟨(hch c hc).1, (hch c hc).2.1⟩)]
    by_cases hcc : a = cc
    · exact ⟨retval, by simp [hcc]⟩
    · refine ⟨-ENODEV, ?_⟩
      rw [if_neg hcc, config_blocks_malformed kw _ (w0 ++ ((a :: ks) ++ [NUL])) w t r (a :: ks)
        w0.length hkw rfl
        (cstr_at w0 (a :: ks) _ _ rfl (fun c hc => (hch c hc).1)) hkw'
        (by simp) (by simp; omega) hw ht hhead
        (by simp only [strcasecmp_eq, beq_eq_false_iff_ne, ne_eq]; exact hmis)]
      rfl

/-! ## Lemmas on blank and comment lines -/

theorem peek_after_whitespace (line : List Char) :
    peek line (eat_whitespace line 0) = ((line.dropWhile isspace).head?).getD NUL := by
  have hsplit := List.takeWhile_append_dropWhile isspace line
  have he : eat_whitespace line 0 = (line.takeWhile isspace).length := by
    simp [eat_whitespace]
  rw [he]
  cases hd : line.dropWhile isspace with
  | nil =>
    rw [hd, List.append_nil] at hsplit
    rw [hsplit]
    simpa using peek_end line _ rfl
  | cons c rest =>
    rw [hd] at hsplit
    have h := peek_at (line.takeWhile isspace) rest c _ rfl
    rw [hsplit] at h
    simpa using h

theorem config_line_blank_or_comment (cc : Char) (malloc_ok : Bool) (line : List Char)
    (retval : Int) (list : List config_device)
    (h : (line.dropWhile isspace).head? = none ∨ (line.dropWhile isspace).head? = some cc) :
    config_line cc malloc_ok line retval list = LineResult.next retval list := by
  have hp := peek_after_whitespace line
  rcases h with h | h
  · rw [h] at hp
    simp [config_line, hp]
  · rw [h] at hp
    simp only [Option.getD_some] at hp
    simp [config_line, hp]

theorem permissions_line_blank_or_comment (cc : Char) (malloc_ok : Bool) (line : List Char)
    (retval : Int) (list : List config_device)
    (h : (line.dropWhile isspace).head? = none ∨ (line.dropWhile isspace).head? = some cc) :
    permissions_line cc malloc_ok line retval list = LineResult.next retval list := by
  have hp := peek_after_whitespace line
  rcases h with h | h
  · rw [h] at hp
    simp [permissions_line, hp]
  · rw [h] at hp
    simp only [Option.getD_some] at hp
    simp [permissions_line, hp]

theorem load_loop_all_skipped
    (body : Bool → List Char → Int → List config_device → LineResult) :
    ∀ (lines : List (List Char)) (malloc_ok : Nat → Bool) (retval : Int)
      (list : List config_device),
      (∀ line ∈ lines, ∀ b r l, body b line r l = LineResult.next r l) →
      load_loop body malloc_ok lines retval list = some (retval, list)
  | [], _, _, _, _ => rfl
  | line :: rest, malloc_ok, retval, list, h => by
    rw [load_loop, h line (by simp)]
    exact load_loop_all_skipped body rest _ retval list (fun x hx => h x (by simp [hx]))

/-! ## Lemmas on the permissions loader -/

theorem fgets_from_line :
    ∀ (body rest cur : List Char), (∀ c ∈ body, c ≠ '\n') →
      cur.length + body.length + 1 < 255 →
      fgets_from 255 (body ++ '\n' :: rest) cur =
        (cur ++ (body ++ ['\n'])) :: fgets_from 255 rest []
  | [], rest, cur, _, _ => by simp [fgets_from]
  | a :: as, rest, cur, hnl, hfit => by
    have ha : a ≠ '\n' := hnl a (by simp)
    have hlen : ¬ (cur.length + 2 ≥ 255) := by
      simp only [List.length_cons] at hfit
      omega
    rw [List.cons_append, fgets_from, if_neg (by simp [ha, hlen]),
      fgets_from_line as rest (cur ++ [a]) (fun c hc => hnl c (by simp [hc]))
        (by simp only [List.length_append, List.length_cons, List.length_nil] at hfit ⊢; omega)]
    simp

theorem fgets_from_last :
    ∀ (last cur : List Char), (∀ c ∈ last, c ≠ '\n') →
      cur.length + last.length + 1 < 255 →
      fgets_from 255 last cur = if cur ++ last = [] then [] else [cur ++ last]
  | [], cur, _, _ => by simp [fgets_from]
  | a :: as, cur, hnl, hfit => by
    have ha : a ≠ '\n' := hnl a (by simp)
    have hlen : ¬ (cur.length + 2 ≥ 255) := by
      simp only [List.length_cons] at hfit
      omega
    rw [fgets_from, if_neg (by simp [ha, hlen]),
      fgets_from_last as (cur ++ [a]) (fun c hc => hnl c (by simp [hc]))
        (by simp only [List.length_append, List.length_cons, List.length_nil] at hfit ⊢; omega)]
    simp

theorem fgets_from_lines (last : List Char) (hlast : (∀ c ∈ last, c ≠ '\n') ∧ last.length < 254) :
    ∀ (bodies : List (List Char)),
      (∀ b ∈ bodies, (∀ c ∈ b, c ≠ '\n') ∧ b.length < 254) →
      fgets_from 255 ((bodies.map (fun b => b ++ ['\n']) ++ [last]).flatten) [] =
        bodies.map (fun b => b ++ ['\n']) ++ (if last = [] then [] else [last])
  | [], _ => by
    have h := fgets_from_last last [] hlast.1 (by simp; omega)
    simpa using h
  | b :: bs, h => by
    have hb := h b (by simp)
    have h1 := fgets_from_line b ((bs.map (fun b => b ++ ['\n']) ++ [last]).flatten) []
      hb.1 (by simp; omega)
    have ih := fgets_from_lines last hlast bs (fun x hx => h x (by simp [hx]))
    simp only [List.map_cons, List.cons_append, List.flatten_cons, List.append_assoc,
      List.singleton_append, List.nil_append] at h1 ⊢
    rw [h1, ih]

theorem blank_or_comment_append (cc : Char) (b ys : List Char)
    (hys : ∀ c ∈ ys, isspace c = true)
    (h : (b.dropWhile isspace).head? = none ∨ (b.dropWhile isspace).head? = some cc) :
    ((b ++ ys).dropWhile isspace).head? = none ∨
      ((b ++ ys).dropWhile isspace).head? = some cc := by
  induction b with
  | nil =>
    left
    have : ys.dropWhile isspace = [] := by
      induction ys with
      | nil => rfl
      | cons a as ih =>
        rw [List.dropWhile_cons, if_pos (hys a (by simp))]
        exact ih (fun c hc => hys c (by simp [hc]))
    simp [this]
  | cons a as ih =>
    by_cases ha : isspace a = true
    · simp only [List.cons_append, List.dropWhile_cons, if_pos ha] at h ⊢
      exact ih h
    · simp only [List.cons_append, List.dropWhile_cons, if_neg ha] at h ⊢
      simpa using h

/-- Claim C1, evaluated on the code.  The registry holds the record A that the naming line
`REPLACE,KERNEL="sda",NAME="disk1"` creates; `add_dev` receives the record B with the same
name and owner `root`, group `disk`, mode 0660.  The merge tests the stored field where the
claim has it test the incoming one: the blank type and kernel name of B erase those of A, and
the owner, group and mode of B are not stored. -/
theorem add_dev_merge_tests_stored_field :
    add_dev true
        { zero_dev with name := "disk1".toList, owner := "root".toList,
                        group := "disk".toList, mode := 432 }
        [{ zero_dev with type := config_type.REPLACE, kernel_name := "sda".toList,
                         name := "disk1".toList }] =
      (0, [{ zero_dev with name := "disk1".toList }]) := by
  decide

/-- Claim C2, evaluated on the code.  From the empty registry, the naming file with the line
`REPLACE,KERNEL="sda",NAME="disk1"` followed by the permissions file with the line
`disk1:root:disk:0660` leaves one record named `disk1` whose type is KERNEL_NAME, whose
kernel name, owner and group are empty and whose mode is 0. -/
theorem namedev_init_permissions_scenario :
    namedev_init '#' (fun _ => true) (fun _ => true)
        (some ["REPLACE,KERNEL=\"sda\",NAME=\"disk1\"\n".toList])
        (some ["disk1:root:disk:0660\n".toList]) [] =
      some (0, [{ zero_dev with name := "disk1".toList }]) := by
  decide

/-- Claim C3, evaluated on the code.  On a naming file whose only line is `LABEL,FOO="x"` the
loader returns `-ENODEV`, the value the skipped line left in `retval`, and `namedev_init`
returns it without running the permissions loader: the record of the permissions line
`disk1:root:disk:0660` is not in the registry. -/
theorem namedev_init_config_returns_stale_retval :
    namedev_init_config '#' (fun _ => true) (some ["LABEL,FOO=\"x\"\n".toList]) [] =
        some (-ENODEV, []) ∧
      namedev_init '#' (fun _ => true) (fun _ => true) (some ["LABEL,FOO=\"x\"\n".toList])
        (some ["disk1:root:disk:0660\n".toList]) [] = some (-ENODEV, []) := by
  decide

/-- Claim C4 (uniqueness invariant).  Starting from the empty registry, after every finite
sequence of `add_dev` calls with arbitrary records and `malloc` succeeding, the names of the
records in the registry are pairwise distinct: no name, the empty one included, is carried by
two records. -/
theorem add_dev_names_unique (devs : List config_device) :
    ((devs.foldl (fun l d => (add_dev true d l).2) []).map (fun d => d.name)).Nodup := by
  suffices h : ∀ (l : List config_device), (l.map (fun d => d.name)).Nodup →
      ((devs.foldl (fun l d => (add_dev true d l).2) l).map (fun d => d.name)).Nodup from
    h [] (by simp)
  induction devs with
  | nil => intro l hl; simpa using hl
  | cons d ds ih =>
    intro l hl
    simp only [List.foldl_cons]
    exact ih _ (add_dev_nodup true d l hl)

/-- Claim C5 (REPLACE line loading).  Let `k` and `n` be C strings without a double quote that
fit `kernel_name` and `name` (fewer than `NAME_SIZE` bytes), and let the registry hold no
record named `n`.  With `malloc` succeeding and a comment character other than `R`, the loop
body on the line `REPLACE,KERNEL="k",NAME="n"` followed by any text `s` (a newline, nothing)
puts one record at the head of the registry, of type REPLACE with kernel name `k`, name `n`
and every other field blank or zero, leaves the records stored before as they were, and sets
`retval` to 0. -/
theorem config_line_replace (cc : Char) (k n s : List Char) (retval : Int)
    (list : List config_device) (hcc : cc ≠ 'R')
    (hk : ∀ c ∈ k, c ≠ NUL ∧ c ≠ '"') (hklen : k.length < NAME_SIZE)
    (hn : ∀ c ∈ n, c ≠ NUL ∧ c ≠ '"') (hnlen : n.length < NAME_SIZE)
    (hfresh : ∀ d ∈ list, d.name ≠ n) :
    config_line cc true
        ("REPLACE,KERNEL=\"".toList ++ (k ++ ("\",NAME=\"".toList ++ (n ++ '"' :: s))))
        retval list =
      LineResult.next 0
        ({ zero_dev with type := config_type.REPLACE, kernel_name := k, name := n } :: list) := by
  have hsplit := config_line_keyword cc true 'R' "EPLACE".toList
    ("KERNEL=\"".toList ++ (k ++ ("\",NAME=\"".toList ++ (n ++ '"' :: s)))) retval list
    (by decide) (Ne.symm hcc) (by decide)
  have c0 : cstr ('R' :: "EPLACE".toList ++
      NUL :: ("KERNEL=\"".toList ++ (k ++ ("\",NAME=\"".toList ++ (n ++ '"' :: s))))) 0 =
      "REPLACE".toList :=
    cstr_at [] "REPLACE".toList _ 0 rfl (by decide)
  obtain ⟨st1, hst1, hdev⟩ := replace_block_load ("REPLACE".toList ++ [NUL]) k n s
    ⟨'R' :: "EPLACE".toList ++
        NUL :: ("KERNEL=\"".toList ++ (k ++ ("\",NAME=\"".toList ++ (n ++ '"' :: s)))),
      some ("EPLACE".toList.length + 2), some 0, none, retval, zero_dev⟩
    (by simp) rfl (by simp only [strcasecmp_at, Option.map_some', c0]; decide) hk hklen hn hnlen
  have hline : "REPLACE,KERNEL=\"".toList ++ (k ++ ("\",NAME=\"".toList ++ (n ++ '"' :: s))) =
      'R' :: "EPLACE".toList ++
        ',' :: ("KERNEL=\"".toList ++ (k ++ ("\",NAME=\"".toList ++ (n ++ '"' :: s)))) := by
    simp
  rw [hline, hsplit, config_blocks,
    bus_block_other TYPE_LABEL _ _ "REPLACE".toList 0 rfl c0 (by decide)]
  simp only [Flow.andThen]
  rw [bus_block_other TYPE_NUMBER _ _ "REPLACE".toList 0 rfl c0 (by decide)]
  simp only [Flow.andThen]
  rw [bus_block_other TYPE_TOPOLOGY _ _ "REPLACE".toList 0 rfl c0 (by decide)]
  simp only [Flow.andThen, hst1, config_finish, hdev]
  exact add_dev_step_fresh _ _ hfresh

/-- Witness of C5: the line `REPLACE,KERNEL="sda",NAME="disk1"` with its newline, comment
character `#`, on the empty registry. -/
theorem config_line_replace_witness :
    config_line '#' true "REPLACE,KERNEL=\"sda\",NAME=\"disk1\"\n".toList 0 [] =
      LineResult.next 0
        [{ zero_dev with type := config_type.REPLACE, kernel_name := "sda".toList,
                         name := "disk1".toList }] :=
  config_line_replace '#' "sda".toList "disk1".toList "\n".toList 0 [] (by decide) (by decide)
    (by decide) (by decide) (by decide) (by simp)

/-- Counterexample to C6 as stated: the key ` BUS`, with a leading blank, and the text
` BUS="usb"`, whose key text is the key itself.  The blank in front of the key text is eaten
as leading whitespace, the text in front of `=` is `BUS`, and `get_value` returns `-ENODEV`
with no value. -/
theorem get_value_key_with_leading_blank :
    get_value " BUS".toList " BUS=\"usb\"".toList (some 0) none =
      some ⟨-ENODEV, [' ', 'B', 'U', 'S', NUL, '"', 'u', 's', 'b', '"'], some 0, none⟩ := by
  decide

/-- Claim C6 as amended (tokenizer extraction).  Let `K` be the expected key and `K'` a key
text case-insensitively equal to `K`, without `=`, and not beginning with a whitespace
character; let `w1`, `w2` be runs of whitespace, `v` a value without a double quote and `s` a
suffix (all of them C strings, free of NUL).  On the text `w1 K' = w2 "v" s`, wherever it
starts in the line buffer, `get_value` returns 0, `*ret_string` is the string `v`, and
`*orig_string` is the string `s`. -/
theorem get_value_extracts (K K' pre w1 w2 v s : List Char) (ret : Option Nat)
    (hK : K'.map tolower = K.map tolower)
    (hK' : ∀ c ∈ K', c ≠ NUL ∧ c ≠ '=')
    (hhead : ∀ c, K'.head? = some c → isspace c = false)
    (hw1 : ∀ c ∈ w1, isspace c = true) (hw2 : ∀ c ∈ w2, isspace c = true)
    (hv : ∀ c ∈ v, c ≠ NUL ∧ c ≠ '"') (hs : ∀ c ∈ s, c ≠ NUL) :
    ∃ g, get_value K (pre ++ (w1 ++ (K' ++ '=' :: (w2 ++ '"' :: (v ++ '"' :: s)))))
        (some pre.length) ret = some g ∧
      g.retval = 0 ∧ g.ret_string.map (cstr g.line) = some v ∧
      g.orig_string.map (cstr g.line) = some s := by
  have hg := get_value_extract K K' pre w1 w2 v s pre.length ret rfl
    (by simp [strcasecmp_eq, hK]) hK' hhead hw1 hw2 hv
  have cv := cstr_at (pre ++ (w1 ++ (K' ++ NUL :: (w2 ++ ['"'])))) v s
    (pre.length + w1.length + K'.length + 1 + w2.length + 1)
    (by simp only [List.length_append, List.length_cons, List.length_nil]; omega)
    (fun c hc => (hv c hc).1)
  have cs := cstr_at_end (pre ++ (w1 ++ (K' ++ NUL :: (w2 ++ '"' :: (v ++ [NUL]))))) s
    (pre.length + w1.length + K'.length + 1 + w2.length + 1 + v.length + 1)
    (by simp only [List.length_append, List.length_cons, List.length_nil]; omega) hs
  simp only [List.append_assoc, List.cons_append, List.nil_append] at cv cs
  exact ⟨_, hg, rfl, by simp only [Option.map_some', cv], by simp only [Option.map_some', cs]⟩

/-- Witness of C6 as amended: key `BUS`, key text `bus`, one blank before the key and one
after `=`, value `usb`, suffix `,NAME="x"`. -/
theorem get_value_extracts_witness :
    ∃ g, get_value "BUS".toList " bus= \"usb\",NAME=\"x\"".toList (some 0) none = some g ∧
      g.retval = 0 ∧ g.ret_string.map (cstr g.line) = some "usb".toList ∧
      g.orig_string.map (cstr g.line) = some ",NAME=\"x\"".toList :=
  get_value_extracts "BUS".toList "bus".toList [] " ".toList " ".toList "usb".toList
    ",NAME=\"x\"".toList none (by decide) (by decide) (by decide) (by decide) (by decide)
    (by decide) (by decide)

/-- Counterexample to C7 as stated: after `get_value` with key `BUS` on the text
`BUS="usb",NAME="x"` the remainder `*orig_string` is not the string `NAME="x"`. -/
theorem get_value_remainder_is_not_next_pair :
    (get_value "BUS".toList "BUS=\"usb\",NAME=\"x\"".toList (some 0) none).bind
        (fun g => g.orig_string.map (cstr g.line)) ≠ some "NAME=\"x\"".toList := by
  decide

/-- Claim C7 as amended (remainder in chained parsing).  `get_value` with key `BUS` on the text
`BUS="usb",NAME="x"` returns 0 with the value `usb` and the remainder `,NAME="x"`, which
begins with the separating comma; on the text `BUS="usb"` it returns 0 with the value `usb`
and an empty remainder. -/
theorem get_value_chained_remainder :
    (get_value "BUS".toList "BUS=\"usb\",NAME=\"x\"".toList (some 0) none).map
        (fun g => (g.retval, g.ret_string.map (cstr g.line), g.orig_string.map (cstr g.line))) =
        some (0, some "usb".toList, some ",NAME=\"x\"".toList) ∧
      (get_value "BUS".toList "BUS=\"usb\"".toList (some 0) none).map
        (fun g => (g.retval, g.ret_string.map (cstr g.line), g.orig_string.map (cstr g.line))) =
        some (0, some "usb".toList, some []) := by
  decide

/-- Counterexample to C8 as stated: `get_value` with key `BUS` on the text `FOO="1"` returns
`-ENODEV` and leaves both pointers alone, but the line text is not left as it was: `strsep`
has put a NUL byte over the `=`. -/
theorem get_value_mismatch_writes_line :
    get_value "BUS".toList "FOO=\"1\"".toList (some 0) none =
        some ⟨-ENODEV, ['F', 'O', 'O', NUL, '"', '1', '"'], some 0, none⟩ ∧
      ['F', 'O', 'O', NUL, '"', '1', '"'] ≠ "FOO=\"1\"".toList := by
  decide

/-- Claim C8 as amended (tokenizer mismatch).  Let the text at `*orig_string` be a run of
whitespace `w` followed by `t`, where `t` holds no `=` and no NUL, does not begin with
whitespace, and is not case-insensitively equal to the key `K`.  If `=` and more text `r`
follow `t`, `get_value` returns `-ENODEV`, leaves `*orig_string` and `*ret_string` as they
were, and changes the line in one byte only: that `=` becomes NUL.  If the text ends after
`t`, `get_value` returns `-ENODEV` and leaves both pointers and the whole line as they were. -/
theorem get_value_key_mismatch (K pre w t r : List Char) (ret : Option Nat)
    (hw : ∀ c ∈ w, isspace c = true) (ht : ∀ c ∈ t, c ≠ NUL ∧ c ≠ '=')
    (hhead : ∀ c, t.head? = some c → isspace c = false)
    (hmis : t.map tolower ≠ K.map tolower) :
    get_value K (pre ++ (w ++ (t ++ '=' :: r))) (some pre.length) ret =
        some ⟨-ENODEV, pre ++ (w ++ (t ++ NUL :: r)), some pre.length, ret⟩ ∧
      get_value K (pre ++ (w ++ t)) (some pre.length) ret =
        some ⟨-ENODEV, pre ++ (w ++ t), some pre.length, ret⟩ := by
  have hmis' : strcasecmp_eq t K = false := by simp [strcasecmp_eq, hmis]
  exact ⟨get_value_mismatch K pre w t r _ ret rfl hw ht hhead hmis',
    get_value_mismatch_end K pre w t _ ret rfl hw ht hhead hmis'⟩

/-- Witness of C8 as amended: key `BUS`, and the texts `FOO="1"` and `FOO` at the start of
the line. -/
theorem get_value_key_mismatch_witness :
    get_value "BUS".toList "FOO=\"1\"".toList (some 0) none =
        some ⟨-ENODEV, ['F', 'O', 'O', NUL, '"', '1', '"'], some 0, none⟩ ∧
      get_value "BUS".toList "FOO".toList (some 0) none =
        some ⟨-ENODEV, "FOO".toList, some 0, none⟩ :=
  get_value_key_mismatch "BUS".toList [] [] "FOO".toList "\"1\"".toList none (by decide)
    (by decide) (by decide) (by decide)

/-- Claim C9, evaluated on the code.  The line `FOO,BAR="x"` has an unknown keyword: none of
the four blocks is entered and the zeroed `dev` goes to `add_dev`.  On the empty registry a
blank record is inserted; on a registry holding the record of `LABEL,BUS="usb"` (empty name)
that record is matched and its type and bus are erased. -/
theorem config_line_unknown_keyword_reaches_add_dev :
    config_line '#' true "FOO,BAR=\"x\"\n".toList 0 [] = LineResult.next 0 [zero_dev] ∧
      config_line '#' true "FOO,BAR=\"x\"\n".toList 0
          [{ zero_dev with type := config_type.LABEL, bus := "usb".toList }] =
        LineResult.next 0 [zero_dev] := by
  decide

/-- Claim C10, evaluated on the code.  On the line `REPLACE,KERNEL="sda"` the remainder after
the KERNEL value holds no comma, `strsep` sets `temp` to NULL, and `get_value("NAME", ...)`
dereferences it; on `REPLACE,KERNEL="sda` (no closing quote) `get_value` itself leaves `temp`
NULL, with the same end.  The loop body has no defined result in either case. -/
theorem config_line_replace_without_name :
    config_line '#' true "REPLACE,KERNEL=\"sda\"\n".toList 0 [] = LineResult.undefined ∧
      config_line '#' true "REPLACE,KERNEL=\"sda\"".toList 0 [] = LineResult.undefined ∧
      config_line '#' true "REPLACE,KERNEL=\"sda\n".toList 0 [] = LineResult.undefined := by
  decide

/-- Claim C11, evaluated on the code.  A permissions line with fewer than three `:` makes
`strsep` return NULL before the loop body is done with it: on `disk1` and on `disk1:root` the
next `strsep` returns NULL and `strncpy` reads from it, on `disk1:root:disk` the remainder
`temp` is NULL and `strtol` reads from it.  The loop body has no defined result; no field is
treated as empty and no record reaches `add_dev`. -/
theorem permissions_line_missing_delimiters :
    permissions_line '#' true "disk1\n".toList 0 [] = LineResult.undefined ∧
      permissions_line '#' true "disk1:root\n".toList 0 [] = LineResult.undefined ∧
      permissions_line '#' true "disk1:root:disk\n".toList 0 [] = LineResult.undefined ∧
      namedev_init_permissions '#' (fun _ => true) (some ["disk1:root:disk\n".toList]) [] =
        none := by
  decide

set_option maxRecDepth 100000 in
/-- Counterexample to C12 as stated: a naming file whose only line is `LABEL,FOO="x...x"` with
300 bytes before its newline.  `fgets` hands the loop body the first 254 bytes, which are
skipped, and then the rest `x...x"` with the newline, which holds no comma and no keyword and
reaches `add_dev` as a zeroed record: the registry does not stay empty. -/
theorem long_malformed_line_adds_record :
    namedev_init_config '#' (fun _ => true)
        (some ["LABEL,FOO=\"".toList ++ List.replicate 288 'x' ++ "\"\n".toList]) [] =
      some (0, [zero_dev]) := by
  decide

/-- Claim C12 as amended (malformed match line).  Take a keyword `kw` among LABEL, NUMBER,
TOPOLOGY and a line made of optional whitespace `w0`, the keyword in any case `kw'`, a comma,
optional whitespace `w`, a key `t` that is not BUS in any case, `=` and any text `r`; let the
line hold no newline and fewer than 254 bytes, so that with its newline it fits the 255-byte
buffer of `fgets`.  Whatever `malloc` would do, the naming-rule loader on a file holding that
line alone, with or without its newline, leaves the registry as it was; and on that line
followed by any further text it leaves the same registry (and is defined in the same cases)
as on the further text alone. -/
theorem config_loader_skips_malformed_match (cc : Char) (malloc_ok : Nat → Bool)
    (kw kw' w0 w t r : List Char) (list : List config_device) (rest : List (List Char))
    (hkw : kw = TYPE_LABEL ∨ kw = TYPE_NUMBER ∨ kw = TYPE_TOPOLOGY)
    (hkw' : kw'.map tolower = kw.map tolower)
    (hw0 : ∀ c ∈ w0, isspace c = true) (hw : ∀ c ∈ w, isspace c = true)
    (ht : ∀ c ∈ t, c ≠ NUL ∧ c ≠ '=')
    (hhead : ∀ c, t.head? = some c → isspace c = false)
    (hmis : t.map tolower ≠ "BUS".toList.map tolower)
    (hnl : ∀ c ∈ w0 ++ (kw' ++ ',' :: (w ++ (t ++ '=' :: r))), c ≠ '\n')
    (hfit : (w0 ++ (kw' ++ ',' :: (w ++ (t ++ '=' :: r)))).length < 254) :
    (∃ r', namedev_init_config cc malloc_ok
        (some [w0 ++ (kw' ++ ',' :: (w ++ (t ++ '=' :: r))) ++ ['\n']]) list =
        some (r', list)) ∧
      (∃ r', namedev_init_config cc malloc_ok
        (some [w0 ++ (kw' ++ ',' :: (w ++ (t ++ '=' :: r)))]) list = some (r', list)) ∧
      (namedev_init_config cc malloc_ok
          (some ((w0 ++ (kw' ++ ',' :: (w ++ (t ++ '=' :: r))) ++ ['\n']) :: rest)) list).map
          Prod.snd =
        (namedev_init_config cc (fun i => malloc_ok (i + 1)) (some rest) list).map Prod.snd := by
  have hchunk : w0 ++ (kw' ++ ',' :: (w ++ (t ++ '=' :: r))) ++ ['\n'] =
      w0 ++ (kw' ++ ',' :: (w ++ (t ++ '=' :: (r ++ ['\n'])))) := by simp
  obtain ⟨r1, hr1⟩ := config_line_malformed cc (malloc_ok 0) kw kw' w0 w t (r ++ ['\n']) 0 list
    hkw hkw' hw0 hw ht hhead hmis
  obtain ⟨r2, hr2⟩ := config_line_malformed cc (malloc_ok 0) kw kw' w0 w t r 0 list
    hkw hkw' hw0 hw ht hhead hmis
  have hne : w0 ++ (kw' ++ ',' :: (w ++ (t ++ '=' :: r))) ≠ [] := by simp
  have f1 := fgets_from_line (w0 ++ (kw' ++ ',' :: (w ++ (t ++ '=' :: r)))) rest.flatten [] hnl
    (by simp only [List.length_nil]; omega)
  have f2 := fgets_from_line (w0 ++ (kw' ++ ',' :: (w ++ (t ++ '=' :: r)))) [] [] hnl
    (by simp only [List.length_nil]; omega)
  have f3 := fgets_from_last (w0 ++ (kw' ++ ',' :: (w ++ (t ++ '=' :: r)))) [] hnl
    (by simp only [List.length_nil]; omega)
  rw [List.nil_append] at f1 f2 f3
  rw [if_neg hne] at f3
  refine ⟨⟨r1, ?_⟩, ⟨r2, ?_⟩, ?_⟩
  · have hj : [w0 ++ (kw' ++ ',' :: (w ++ (t ++ '=' :: r))) ++ ['\n']].flatten =
        w0 ++ (kw' ++ ',' :: (w ++ (t ++ '=' :: r))) ++ '\n' :: [] := by simp
    rw [namedev_init_config]
    simp only [hj, f2, fgets_from, if_true, load_loop, ← hchunk] at hr1 ⊢
    simp only [hr1]
  · have hj : [w0 ++ (kw' ++ ',' :: (w ++ (t ++ '=' :: r)))].flatten =
        w0 ++ (kw' ++ ',' :: (w ++ (t ++ '=' :: r))) := by simp
    rw [namedev_init_config]
    simp only [hj, f3, load_loop, hr2]
  · have hj : ((w0 ++ (kw' ++ ',' :: (w ++ (t ++ '=' :: r))) ++ ['\n']) :: rest).flatten =
        w0 ++ (kw' ++ ',' :: (w ++ (t ++ '=' :: r))) ++ '\n' :: rest.flatten := by simp
    simp only [namedev_init_config, hj, f1, load_loop, ← hchunk] at hr1 ⊢
    simp only [hr1]
    exact config_loop_retval cc _ _ r1 0 list

/-- Witness of C12 as amended: the line `LABEL,FOO="x"`, alone and in front of the line
`REPLACE,KERNEL="sda",NAME="disk1"`, on the empty registry. -/
theorem config_loader_skips_malformed_match_witness :
    (∃ r', namedev_init_config '#' (fun _ => true) (some ["LABEL,FOO=\"x\"\n".toList]) [] =
        some (r', [])) ∧
      (∃ r', namedev_init_config '#' (fun _ => true) (some ["LABEL,FOO=\"x\"".toList]) [] =
        some (r', [])) ∧
      (namedev_init_config '#' (fun _ => true)
          (some ["LABEL,FOO=\"x\"\n".toList, "REPLACE,KERNEL=\"sda\",NAME=\"disk1\"\n".toList])
          []).map Prod.snd =
        (namedev_init_config '#' (fun _ => true)
          (some ["REPLACE,KERNEL=\"sda\",NAME=\"disk1\"\n".toList]) []).map Prod.snd :=
  config_loader_skips_malformed_match '#' (fun _ => true) "LABEL".toList "LABEL".toList [] []
    "FOO".toList "\"x\"".toList [] ["REPLACE,KERNEL=\"sda\",NAME=\"disk1\"\n".toList]
    (Or.inl rfl) rfl (by decide) (by decide) (by decide) (by decide) (by decide) (by decide)
    (by decide)

set_option maxRecDepth 100000 in
/-- Counterexample to C13 as stated: a file whose only line is a comment of 300 bytes, `#`
followed by `x...x`.  `fgets` hands the loop body the first 254 bytes, skipped as a comment,
and then the remaining `x...x` with the newline as a line of its own: the naming-rule loader
sends it to `add_dev` as a zeroed record and the registry does not stay empty; the
permissions loader finds no `:` in it and reads from NULL. -/
theorem long_comment_line_is_parsed :
    namedev_init_config '#' (fun _ => true)
        (some ['#' :: List.replicate 299 'x' ++ ['\n']]) [] = some (0, [zero_dev]) ∧
      namedev_init_permissions '#' (fun _ => true)
        (some ['#' :: List.replicate 299 'x' ++ ['\n']]) [] = none := by
  decide

/-- Claim C13 as amended (comment and blank tolerance).  Let the file be the lines `bodies`,
each followed by its newline, and a last line `last` without newline (possibly empty); let
every line hold fewer than 254 bytes, so that with its newline it fits the 255-byte buffer of
`fgets`, and be blank (whitespace only) or have the comment character as its first
non-whitespace character.  Then `namedev_init_config` and `namedev_init_permissions` both
return 0 and leave the registry as it was, whatever it holds and whatever `malloc` would do;
from the empty registry the result is the empty registry. -/
theorem loaders_skip_blank_and_comment_lines (cc : Char) (malloc_ok : Nat → Bool)
    (bodies : List (List Char)) (last : List Char) (list : List config_device)
    (h : ∀ b ∈ bodies ++ [last], (∀ c ∈ b, c ≠ '\n') ∧ b.length < 254 ∧
      ((b.dropWhile isspace).head? = none ∨ (b.dropWhile isspace).head? = some cc)) :
    namedev_init_config cc malloc_ok
        (some (bodies.map (fun b => b ++ ['\n']) ++ [last])) list = some (0, list) ∧
      namedev_init_permissions cc malloc_ok
        (some (bodies.map (fun b => b ++ ['\n']) ++ [last])) list = some (0, list) := by
  have hlast := h last (by simp)
  have hchunks := fgets_from_lines last ⟨hlast.1, hlast.2.1⟩ bodies
    (fun b hb => ⟨(h b (by simp [hb])).1, (h b (by simp [hb])).2.1⟩)
  have hall : ∀ line ∈ bodies.map (fun b => b ++ ['\n']) ++ (if last = [] then [] else [last]),
      (line.dropWhile isspace).head? = none ∨ (line.dropWhile isspace).head? = some cc := by
    intro line hl
    rcases List.mem_append.1 hl with hl | hl
    · obtain ⟨b, hb, rfl⟩ := List.mem_map.1 hl
      exact blank_or_comment_append cc b ['\n'] (by decide) (h b (by simp [hb])).2.2
    · by_cases hl0 : last = []
      · simp [hl0] at hl
      · simp only [hl0, if_false, List.mem_singleton] at hl
        subst hl
        exact hlast.2.2
  constructor
  · simp only [namedev_init_config, hchunks]
    exact load_loop_all_skipped (config_line cc) _ malloc_ok 0 list
      (fun line hl b r l => config_line_blank_or_comment cc b line r l (hall line hl))
  · simp only [namedev_init_permissions, hchunks]
    exact load_loop_all_skipped (permissions_line cc) _ malloc_ok 0 list
      (fun line hl b r l => permissions_line_blank_or_comment cc b line r l (hall line hl))

/-- Witness of C13 as amended: an empty line, two comment lines (one indented) and a last
line of blanks without newline, comment character `#`, on the empty registry. -/
theorem loaders_skip_blank_and_comment_lines_witness :
    namedev_init_config '#' (fun _ => true)
        (some ["\n".toList, "# naming rules\n".toList, "  \t# indented\n".toList, "   ".toList])
        [] = some (0, []) ∧
      namedev_init_permissions '#' (fun _ => true)
        (some ["\n".toList, "# naming rules\n".toList, "  \t# indented\n".toList, "   ".toList])
        [] = some (0, []) :=
  loaders_skip_blank_and_comment_lines '#' (fun _ => true)
    ["".toList, "# naming rules".toList, "  \t# indented".toList] "   ".toList []
    (by decide)

/-- Claim C15 (initialization fails when a loader fails).  `namedev_init` returns 0, leaving
the registry `l`, exactly when `namedev_init_config` returned 0 and
`namedev_init_permissions`, run on the registry the first loader left, returned 0 leaving
`l`.  When the naming-rule loader returns a value other than 0, `namedev_init` returns that
value with the registry that loader left, whatever the permissions file holds; when it
returns 0, `namedev_init` returns what the permissions loader returns.  When the naming-rule
file cannot be opened, the value is that loader's `-ENODEV`, which is not 0, and the registry
is untouched; when the naming-rule loader returned 0 and the permissions file cannot be
opened, `namedev_init` returns the permissions loader's `-ENODEV`. -/
theorem namedev_init_fails_with_loader (cc : Char) (malloc_config malloc_perm : Nat → Bool)
    (config_file permissions_file : Option (List (List Char))) (list : List config_device) :
    (∀ l, namedev_init cc malloc_config malloc_perm config_file permissions_file list =
        some (0, l) ↔
      ∃ l1, namedev_init_config cc malloc_config config_file list = some (0, l1) ∧
        namedev_init_permissions cc malloc_perm permissions_file l1 = some (0, l)) ∧
    (∀ r1 l1, namedev_init_config cc malloc_config config_file list = some (r1, l1) → r1 ≠ 0 →
      namedev_init cc malloc_config malloc_perm config_file permissions_file list =
        some (r1, l1)) ∧
    (∀ l1, namedev_init_config cc malloc_config config_file list = some (0, l1) →
      namedev_init cc malloc_config malloc_perm config_file permissions_file list =
        namedev_init_permissions cc malloc_perm permissions_file l1) ∧
    (namedev_init_config cc malloc_config none list = some (-ENODEV, list) ∧
      namedev_init cc malloc_config malloc_perm none permissions_file list =
        some (-ENODEV, list) ∧ -ENODEV ≠ 0) ∧
    (∀ l1, namedev_init_config cc malloc_config config_file list = some (0, l1) →
      namedev_init_permissions cc malloc_perm none l1 = some (-ENODEV, l1) ∧
      namedev_init cc malloc_config malloc_perm config_file none list = some (-ENODEV, l1)) := by
  refine ⟨?_, ?_, ?_, ?_, ?_⟩
  · intro l
    unfold namedev_init
    cases hc : namedev_init_config cc malloc_config config_file list with
    | none => simp
    | some p =>
      obtain ⟨r1, l1⟩ := p
      by_cases hr : r1 = 0
      · subst hr
        simp
      · simp [hr]
  · intro r1 l1 h hr
    simp [namedev_init, h, hr]
  · intro l1 h
    simp [namedev_init, h]
  · refine ⟨rfl, ?_, by decide⟩
    simp [namedev_init, namedev_init_config, ENODEV]
  · intro l1 h
    refine ⟨rfl, ?_⟩
    simp [namedev_init, h, namedev_init_permissions]

/-- Witness of C15: the naming-rule file holds the line `REPLACE,KERNEL="sda",NAME="disk1"`
and the permissions file cannot be opened. -/
theorem namedev_init_fails_with_loader_witness :
    namedev_init '#' (fun _ => true) (fun _ => true)
        (some ["REPLACE,KERNEL=\"sda\",NAME=\"disk1\"\n".toList]) none [] =
      some (-ENODEV, [{ zero_dev with type := config_type.REPLACE, kernel_name := "sda".toList,
                                      name := "disk1".toList }]) :=
  ((namedev_init_fails_with_loader '#' (fun _ => true) (fun _ => true)
      (some ["REPLACE,KERNEL=\"sda\",NAME=\"disk1\"\n".toList]) none []).2.2.2.2
    [{ zero_dev with type := config_type.REPLACE, kernel_name := "sda".toList,
                     name := "disk1".toList }] (by decide)).2

/-- Claim C17, evaluated on the code.  The naming line `LABEL,BUS="..."` with a bus value of 60
bytes is not skipped: `strcpy` copies the value into the 30 bytes of `dev.bus` and runs past
the array.  A permissions line with an owner of 40 bytes is not skipped either: `strncpy`
fills `dev.owner` without a terminator, and when the line follows `disk1:adm:disk:0640` the
merge copies the unterminated owner over the stored one.  Neither run has a defined
result. -/
theorem oversized_fields_are_copied :
    config_line '#' true
        "LABEL,BUS=\"012345678901234567890123456789012345678901234567890123456789\"\n".toList
        0 [] = LineResult.undefined ∧
      namedev_init_permissions '#' (fun _ => true)
        (some ["disk1:adm:disk:0640\n".toList,
               "disk1:0123456789012345678901234567890123456789:disk:0660\n".toList]) [] =
        none := by
  decide

/-- Claim C18 (insert at the head).  When no record of the registry `l` has the name of
`new_dev` (the empty name included) and `malloc` succeeds, `add_dev` returns 0 and the
registry becomes `new_dev`, every field as it came, followed by `l` unchanged. -/
theorem add_dev_inserts_at_head (new_dev : config_device) (l : List config_device)
    (h : ∀ d ∈ l, d.name ≠ new_dev.name) : add_dev true new_dev l = (0, new_dev :: l) := by
  simp [add_dev, (add_dev_scan_none new_dev l).2 h]

/-- Witness of C18: a record with the empty name and bus `usb` on a registry holding one
record named `disk1`. -/
theorem add_dev_inserts_at_head_witness :
    add_dev true { zero_dev with type := config_type.LABEL, bus := "usb".toList }
        [{ zero_dev with name := "disk1".toList }] =
      (0, [{ zero_dev with type := config_type.LABEL, bus := "usb".toList },
           { zero_dev with name := "disk1".toList }]) :=
  add_dev_inserts_at_head { zero_dev with type := config_type.LABEL, bus := "usb".toList }
    [{ zero_dev with name := "disk1".toList }] (by decide)

end Namedev
